import Mathlib

/-!
Shallow embedding of `api/cases.js`: the header locator and table projector
behind `GET /api/cases`, the record-to-row serializer behind `PUT /api/cases`,
and the location appender behind `POST /api/location`.

Spreadsheet cell values are modelled by `Cell` (strings or numbers; numbers
are modelled as integers).  A JavaScript object is modelled as an
insertion-ordered association list from keys to values, where a stored value
of `Option.none` models a key that was assigned `undefined` (reading `row[i]`
past the end of a row).  Remote spreadsheet operations are not executed;
instead each handler returns the list of `SheetCall`s it would issue, so that
claims about which remote calls are made can be stated.  The timestamp of the
location route (`new Date().toISOString()`) is passed in as a parameter `now`.
-/

namespace Casos

/-- A cell value delivered by the spreadsheet read: a string or a number
(numbers are modelled as integers). -/
inductive Cell where
  | str (s : String)
  | num (n : Int)
deriving DecidableEq, Repr

/-- JavaScript truthiness of a cell value: the empty string and zero are
falsy, every other string or number is truthy. -/
def cellTruthy : Cell → Bool
  | Cell.str s => decide (s ≠ "")
  | Cell.num n => decide (n ≠ 0)

/-- JavaScript `String(h)` applied to a cell value. -/
def cellToString : Cell → String
  | Cell.str s => s
  | Cell.num n => toString n

/-- JavaScript `.trim()`: drop whitespace from both ends of the string. -/
def trimString (s : String) : String :=
  String.mk (((s.toList.dropWhile Char.isWhitespace).reverse.dropWhile
    Char.isWhitespace).reverse)

/-- The header materialization `h => h ? String(h).trim() : ''` (cases.js
line 61), applied to each cell of the located header row. -/
def cellToHeader (c : Cell) : String :=
  if cellTruthy c then trimString (cellToString c) else ""

/-- The marker test of cases.js line 50:
`row.includes('EXPEDIENTE') && row.includes('NOMBRES') && row.includes('RUT')`.
`Array.prototype.includes` is exact-value containment over the raw cells. -/
def rowHasMarkers (row : List Cell) : Bool :=
  decide (Cell.str "EXPEDIENTE" ∈ row) &&
    decide (Cell.str "NOMBRES" ∈ row) &&
      decide (Cell.str "RUT" ∈ row)

/-- The scan loop of cases.js lines 47-54, with the running index made
explicit: return the index of the first row satisfying `rowHasMarkers`. -/
def findMarkerIdx : Nat → List (List Cell) → Option Nat
  | _, [] => none
  | i, row :: rest =>
    if rowHasMarkers row then some i else findMarkerIdx (i + 1) rest

/-- `for (let i = 0; i < Math.min(rows.length, 10); i++)` with `break` on the
first qualifying row: scan only the first 10 rows. -/
def findHeaderRowIndex (rows : List (List Cell)) : Option Nat :=
  findMarkerIdx 0 (rows.take 10)

/-- A JavaScript object as an insertion-ordered association list. A stored
value `Option.none` models a key holding `undefined`. -/
abbrev JsObj := List (String × Option Cell)

/-- JavaScript property assignment `obj[k] = v`: overwrite the entry for `k`
in place if present, otherwise append the new key at the end. -/
def objInsert : JsObj → String → Option Cell → JsObj
  | [], k, v => [(k, v)]
  | p :: rest, k, v =>
    if p.1 = k then (k, v) :: rest else p :: objInsert rest k v

/-- JavaScript property read `obj[k]`: `none` when the key is absent. -/
def objGet (obj : JsObj) (k : String) : Option (Option Cell) :=
  (obj.find? (fun p => p.1 = k)).map (fun p => p.2)

/-- The own-key list of an object, in insertion order. -/
def objKeys (obj : JsObj) : List String :=
  obj.map (fun p => p.1)

/-- The field-filling loop of cases.js lines 66-68:
`headers.forEach((header, i) => caseObject[header] = row[i])`, with the
running column index `i` explicit. -/
def assignFields : JsObj → List String → List Cell → Nat → JsObj
  | obj, [], _, _ => obj
  | obj, h :: rest, row, i =>
    assignFields (objInsert obj h (row.get? i)) rest row (i + 1)

/-- One projected case object (cases.js lines 64-70): fill the header fields
from the row, then assign the synthetic `rowIndex` field. -/
def mkCaseObject (headers : List String) (row : List Cell) (rowIndex : Nat) :
    JsObj :=
  objInsert (assignFields [] headers row 0) "rowIndex"
    (some (Cell.num (rowIndex : Int)))

/-- `rows.slice(dataStartIndex).map((row, index) => ...)` with
`caseObject.rowIndex = dataStartIndex + index + 1` (cases.js lines 64-71). -/
def projectRows (headers : List String) (dataStartIndex : Nat) :
    Nat → List (List Cell) → List JsObj
  | _, [] => []
  | index, row :: rest =>
    mkCaseObject headers row (dataStartIndex + index + 1) ::
      projectRows headers dataStartIndex (index + 1) rest

/-- The pair returned by the read route: the trimmed header list and the
projected case objects. -/
structure CaseTable where
  headers : List String
  cases : List JsObj
deriving DecidableEq, Repr

/-- The core of `GET /api/cases` on a non-empty grid (cases.js lines 47-73):
locate the header row, trim it into the header list, and project every later
row into a case object. An undetectable header row yields the empty table. -/
def getCases (rows : List (List Cell)) : CaseTable :=
  match findHeaderRowIndex rows with
  | none => ⟨[], []⟩
  | some headerRowIndex =>
    let headers := (rows.getD headerRowIndex []).map cellToHeader
    let dataStartIndex := headerRowIndex + 1
    ⟨headers, projectRows headers dataStartIndex 0 (rows.drop dataStartIndex)⟩

/-- An HTTP response of the read route: status code and body. -/
structure GetResult where
  status : Nat
  body : CaseTable
deriving DecidableEq, Repr

/-- The `GET /api/cases` handler given the fetched `response.data.values`
(`none` models an absent `values`, cases.js line 43); the catch branch for a
failed remote read is outside the model. -/
def getCasesRoute (rowsOpt : Option (List (List Cell))) : GetResult :=
  match rowsOpt with
  | none => ⟨200, ⟨[], []⟩⟩
  | some rows =>
    if rows.length = 0 then ⟨200, ⟨[], []⟩⟩ else ⟨200, getCases rows⟩

/-- A remote spreadsheet operation a handler would issue. -/
inductive SheetCall where
  | clear (range : String)
  | update (range : String) (values : List (List (Option Cell)))
  | append (range : String) (values : List (List Cell))
deriving DecidableEq, Repr

/-- The write-path field read `caso[header] || null` (cases.js line 90):
an absent key, an `undefined` value, or a falsy cell serializes to `null`
(modelled as `none`); a truthy cell passes through. -/
def serializeField (v : Option (Option Cell)) : Option Cell :=
  match v with
  | some (some c) => if cellTruthy c then some c else none
  | _ => none

/-- `cases.map(caso => headers.map(header => caso[header] || null))`
(cases.js line 90). -/
def serializeCases (headers : List String) (cases : List JsObj) :
    List (List (Option Cell)) :=
  cases.map (fun caso => headers.map (fun header => serializeField (objGet caso header)))

/-- The body of a `PUT /api/cases` request; `none` models a missing field. -/
structure PutBody where
  headers : Option (List String)
  cases : Option (List JsObj)

/-- Outcome of the `PUT` handler: status, message, remote calls issued. -/
structure PutResult where
  status : Nat
  message : String
  calls : List SheetCall
deriving DecidableEq, Repr

/-- The `PUT /api/cases` handler (cases.js lines 84-106): reject a body
missing `headers` or `cases` with 400 before any remote call; otherwise
serialize the records, clear the data range, and issue the update only when
there is at least one serialized row. Remote failure is outside the model. -/
def putCases (body : PutBody) : PutResult :=
  match body.headers, body.cases with
  | some headers, some cases =>
    let values := serializeCases headers cases
    ⟨200, "Hoja de cálculo actualizada con éxito.",
      SheetCall.clear "BD!A4:ZZ" ::
        (if values.length > 0 then [SheetCall.update "BD!A4" values] else [])⟩
  | _, _ => ⟨400, "Faltan headers o cases en la petición.", []⟩

/-- The optional coordinate pair of a location body. -/
structure LatLon where
  lat : Option Int
  lon : Option Int

/-- The body of a `POST /api/location` request; `none` models an absent
field. Coordinates are modelled as integers. -/
structure LocBody where
  address : Option String
  location : Option LatLon
  caseId : Option String

/-- Outcome of the location handler: status, message, remote calls issued. -/
structure LocResult where
  status : Nat
  message : String
  calls : List SheetCall
deriving DecidableEq, Repr

/-- Truthiness of an optional string: absent and empty are falsy. -/
def strTruthy : Option String → Bool
  | none => false
  | some s => decide (s ≠ "")

/-- Truthiness of an optional number: absent and zero are falsy. -/
def numTruthy : Option Int → Bool
  | none => false
  | some n => decide (n ≠ 0)

/-- The validation guard of cases.js line 118, negated:
`!(!address || !location || !location.lat || !location.lon)`. -/
def locBodyValid (body : LocBody) : Bool :=
  strTruthy body.address &&
    match body.location with
    | none => false
    | some loc => numTruthy loc.lat && numTruthy loc.lon

/-- `caseId || 'N/A'` (cases.js line 131). -/
def caseIdOrNA : Option String → String
  | none => "N/A"
  | some c => if c = "" then "N/A" else c

/-- JavaScript `address.split(',')[0]`: the prefix of the string up to the
first comma (the whole string when there is no comma). -/
def firstSegment (address : String) : String :=
  String.mk (address.toList.takeWhile (fun ch => ch ≠ ','))

/-- The `POST /api/location` handler (cases.js lines 115-144) with the
append-time timestamp `new Date().toISOString()` passed in as `now`. On a
valid body it appends one five-field row and reports success quoting the
first comma-delimited segment of the address; otherwise it responds 400
without any remote call. Remote failure is outside the model. -/
def postLocation (now : String) (body : LocBody) : LocResult :=
  if locBodyValid body then
    let address := body.address.getD ""
    let loc := body.location.getD ⟨none, none⟩
    ⟨200,
      "Ubicación para \"" ++ firstSegment address ++ "\" guardada correctamente.",
      [SheetCall.append "Ubicaciones!A:E"
        [[Cell.str now, Cell.str address, Cell.num (loc.lat.getD 0),
          Cell.num (loc.lon.getD 0), Cell.str (caseIdOrNA body.caseId)]]]⟩
  else ⟨400, "Datos de ubicación incompletos.", []⟩

end Casos

namespace Casos

theorem objGet_objInsert (k k' : String) (v : Option Cell) :
    ∀ obj : JsObj,
      objGet (objInsert obj k v) k' = if k' = k then some v else objGet obj k'
  | [] => by
    by_cases h : k' = k
    · simp [objInsert, objGet, List.find?, h]
    · have hne : k ≠ k' := Ne.symm h
      simp [objInsert, objGet, List.find?, h, hne]
  | p :: rest => by
    by_cases hp : p.1 = k
    · by_cases h : k' = k
      · simp [objInsert, objGet, List.find?, hp, h]
      · have hne : k ≠ k' := Ne.symm h
        simp [objInsert, objGet, List.find?, hp, h, hne]
    · by_cases h2 : p.1 = k'
      · have hk : k' ≠ k := fun hkk => hp (h2.trans hkk)
        simp [objInsert, objGet, List.find?, hp, h2, hk]
      · have := objGet_objInsert k k' v rest
        by_cases h : k' = k <;>
          simp_all [objInsert, objGet, List.find?, hp, h2]

theorem objKeys_objInsert (k : String) (v : Option Cell) :
    ∀ obj : JsObj,
      objKeys (objInsert obj k v) =
        if k ∈ objKeys obj then objKeys obj else objKeys obj ++ [k]
  | [] => by simp [objInsert, objKeys]
  | p :: rest => by
    by_cases hp : p.1 = k
    · simp [objInsert, objKeys, hp]
    · have := objKeys_objInsert k v rest
      by_cases hm : k ∈ objKeys rest <;>
        simp_all [objInsert, objKeys, hp, Ne.symm hp]

end Casos

namespace Casos

theorem objGet_assignFields_not_mem (row : List Cell) (k : String) :
    ∀ (headers : List String) (obj : JsObj) (i : Nat), k ∉ headers →
      objGet (assignFields obj headers row i) k = objGet obj k
  | [], _, _, _ => rfl
  | h :: rest, obj, i, hk => by
    have hk1 : k ≠ h := fun hh => hk (hh ▸ List.mem_cons_self h rest)
    have hk2 : k ∉ rest := fun hh => hk (List.mem_cons_of_mem h hh)
    rw [assignFields, objGet_assignFields_not_mem row k rest _ _ hk2,
      objGet_objInsert, if_neg hk1]

theorem objGet_assignFields_nodup (row : List Cell) :
    ∀ (headers : List String) (obj : JsObj) (i0 n : Nat) (hn : n < headers.length),
      headers.Nodup →
      objGet (assignFields obj headers row i0) (headers.get ⟨n, hn⟩) =
        some (row.get? (i0 + n))
  | [], _, _, n, hn, _ => absurd hn (Nat.not_lt_zero n)
  | h :: rest, obj, i0, 0, hn, hnd => by
    have hmem : h ∉ rest := (List.nodup_cons.mp hnd).1
    rw [assignFields]
    show objGet (assignFields (objInsert obj h (row.get? i0)) rest row (i0 + 1)) h =
      some (row.get? (i0 + 0))
    rw [objGet_assignFields_not_mem row h rest _ _ hmem, objGet_objInsert, if_pos rfl]
    rfl
  | h :: rest, obj, i0, n + 1, hn, hnd => by
    have hrest : rest.Nodup := (List.nodup_cons.mp hnd).2
    have hn2 : n < rest.length := Nat.lt_of_succ_lt_succ hn
    rw [assignFields]
    show objGet (assignFields (objInsert obj h (row.get? i0)) rest row (i0 + 1))
        (rest.get ⟨n, hn2⟩) = some (row.get? (i0 + (n + 1)))
    have harith : i0 + 1 + n = i0 + (n + 1) := by omega
    rw [objGet_assignFields_nodup row rest _ (i0 + 1) n hn2 hrest, harith]

theorem objKeys_assignFields_subset (row : List Cell) (k : String) :
    ∀ (headers : List String) (obj : JsObj) (i : Nat),
      k ∈ objKeys (assignFields obj headers row i) → k ∈ objKeys obj ∨ k ∈ headers
  | [], _, _, hk => Or.inl hk
  | h :: rest, obj, i, hk => by
    rcases objKeys_assignFields_subset row k rest _ (i + 1) hk with hobj | hrest
    · rw [objKeys_objInsert] at hobj
      split at hobj
      · exact Or.inl hobj
      · rcases List.mem_append.mp hobj with hobj | hh
        · exact Or.inl hobj
        · exact Or.inr (List.mem_singleton.mp hh ▸ List.mem_cons_self h rest)
    · exact Or.inr (List.mem_cons_of_mem h hrest)

theorem objKeys_assignFields_fresh (row : List Cell) :
    ∀ (headers : List String) (obj : JsObj) (i : Nat),
      headers.Nodup → (∀ h ∈ headers, h ∉ objKeys obj) →
      objKeys (assignFields obj headers row i) = objKeys obj ++ headers
  | [], obj, _, _, _ => (List.append_nil (objKeys obj)).symm
  | h :: rest, obj, i, hnd, hfresh => by
    have hnotmem : h ∉ objKeys obj := hfresh h (List.mem_cons_self h rest)
    have hkeys : objKeys (objInsert obj h (row.get? i)) = objKeys obj ++ [h] := by
      rw [objKeys_objInsert, if_neg hnotmem]
    rw [assignFields,
      objKeys_assignFields_fresh row rest _ (i + 1) (List.nodup_cons.mp hnd).2 ?_,
      hkeys, List.append_assoc]
    · rfl
    · intro x hx
      rw [hkeys]
      intro hmem
      rcases List.mem_append.mp hmem with hobj | hh
      · exact hfresh x (List.mem_cons_of_mem h hx) hobj
      · exact (List.nodup_cons.mp hnd).1 (List.mem_singleton.mp hh ▸ hx)

theorem objGet_mkCaseObject_rowIndex (headers : List String) (row : List Cell)
    (ri : Nat) :
    objGet (mkCaseObject headers row ri) "rowIndex" =
      some (some (Cell.num (ri : Int))) := by
  rw [mkCaseObject, objGet_objInsert, if_pos rfl]

theorem objGet_mkCaseObject_header (headers : List String) (row : List Cell)
    (ri n : Nat) (hn : n < headers.length) (hnd : headers.Nodup)
    (hri : "rowIndex" ∉ headers) :
    objGet (mkCaseObject headers row ri) (headers.get ⟨n, hn⟩) =
      some (row.get? n) := by
  have hne : headers.get ⟨n, hn⟩ ≠ "rowIndex" :=
    fun hh => hri (hh ▸ List.get_mem headers n hn)
  rw [mkCaseObject, objGet_objInsert, if_neg hne,
    objGet_assignFields_nodup row headers [] 0 n hn hnd, Nat.zero_add]

theorem objKeys_mkCaseObject_subset (headers : List String) (row : List Cell)
    (ri : Nat) (k : String) :
    k ∈ objKeys (mkCaseObject headers row ri) → k ∈ headers ∨ k = "rowIndex" := by
  intro hk
  rw [mkCaseObject, objKeys_objInsert] at hk
  split at hk
  · rcases objKeys_assignFields_subset row k headers [] 0 hk with h0 | hh
    · exact absurd h0 (List.not_mem_nil k)
    · exact Or.inl hh
  · rcases List.mem_append.mp hk with hin | hri
    · rcases objKeys_assignFields_subset row k headers [] 0 hin with h0 | hh
      · exact absurd h0 (List.not_mem_nil k)
      · exact Or.inl hh
    · exact Or.inr (List.mem_singleton.mp hri)

theorem objKeys_mkCaseObject (headers : List String) (row : List Cell)
    (ri : Nat) (hnd : headers.Nodup) (hri : "rowIndex" ∉ headers) :
    objKeys (mkCaseObject headers row ri) = headers ++ ["rowIndex"] := by
  have hkeys : objKeys (assignFields [] headers row 0) = headers := by
    rw [objKeys_assignFields_fresh row headers [] 0 hnd
      (fun h _ => List.not_mem_nil h)]
    rfl
  rw [mkCaseObject, objKeys_objInsert, hkeys, if_neg hri]

end Casos

namespace Casos

theorem length_projectRows (headers : List String) (ds : Nat) :
    ∀ (i0 : Nat) (l : List (List Cell)),
      (projectRows headers ds i0 l).length = l.length
  | _, [] => rfl
  | i0, row :: rest => by
    rw [projectRows, List.length_cons, List.length_cons,
      length_projectRows headers ds (i0 + 1) rest]

theorem getD_projectRows (headers : List String) (ds : Nat) :
    ∀ (l : List (List Cell)) (i0 n : Nat), n < l.length →
      (projectRows headers ds i0 l).getD n [] =
        mkCaseObject headers (l.getD n []) (ds + (i0 + n) + 1)
  | [], _, n, h => absurd h (Nat.not_lt_zero n)
  | row :: rest, i0, 0, _ => rfl
  | row :: rest, i0, n + 1, h => by
    have harith : i0 + 1 + n = i0 + (n + 1) := by omega
    show (projectRows headers ds (i0 + 1) rest).getD n [] =
      mkCaseObject headers (rest.getD n []) (ds + (i0 + (n + 1)) + 1)
    rw [getD_projectRows headers ds rest (i0 + 1) n (Nat.lt_of_succ_lt_succ h),
      harith]

theorem mem_projectRows (headers : List String) (ds : Nat) :
    ∀ (l : List (List Cell)) (i0 : Nat) (caso : JsObj),
      caso ∈ projectRows headers ds i0 l →
      ∃ row ∈ l, ∃ ri, caso = mkCaseObject headers row ri
  | [], _, caso, h => absurd h (List.not_mem_nil caso)
  | row :: rest, i0, caso, h => by
    rcases List.mem_cons.mp h with h1 | h2
    · exact ⟨row, List.mem_cons_self row rest, ds + i0 + 1, h1⟩
    · obtain ⟨r, hr, ri, he⟩ := mem_projectRows headers ds rest (i0 + 1) caso h2
      exact ⟨r, List.mem_cons_of_mem row hr, ri, he⟩

theorem findMarkerIdx_eq_some :
    ∀ (l : List (List Cell)) (i0 i : Nat),
      findMarkerIdx i0 l = some i ↔
        ∃ k, i = i0 + k ∧ k < l.length ∧
          rowHasMarkers (l.getD k []) = true ∧
            ∀ j, j < k → rowHasMarkers (l.getD j []) = false
  | [], i0, i => by simp [findMarkerIdx]
  | row :: rest, i0, i => by
    rw [findMarkerIdx]
    by_cases hr : rowHasMarkers row
    · rw [if_pos hr]
      constructor
      · intro h
        refine ⟨0, (Option.some_inj.mp h).symm, Nat.succ_pos _, hr, ?_⟩
        intro j hj
        exact absurd hj (Nat.not_lt_zero j)
      · rintro ⟨k, hik, hk, hm, hp⟩
        match k with
        | 0 =>
          rw [hik]
          rfl
        | m + 1 =>
          have h0 : rowHasMarkers ((row :: rest).getD 0 []) = false :=
            hp 0 (Nat.succ_pos m)
          rw [show (row :: rest).getD 0 [] = row from rfl, hr] at h0
          exact absurd h0 (by simp)
    · rw [if_neg hr, findMarkerIdx_eq_some rest (i0 + 1) i]
      have hrf : rowHasMarkers row = false := by
        exact Bool.not_eq_true _ ▸ eq_false_of_ne_true hr
      constructor
      · rintro ⟨k, hik, hk, hm, hp⟩
        refine ⟨k + 1, by omega, Nat.succ_lt_succ hk, hm, ?_⟩
        intro j hj
        match j with
        | 0 => exact hrf
        | m + 1 => exact hp m (Nat.lt_of_succ_lt_succ hj)
      · rintro ⟨k, hik, hk, hm, hp⟩
        match k with
        | 0 =>
          rw [show (row :: rest).getD 0 [] = row from rfl] at hm
          rw [hm] at hrf
          exact absurd hrf (by simp)
        | m + 1 =>
          refine ⟨m, by omega, Nat.lt_of_succ_lt_succ hk, hm, ?_⟩
          intro j hj
          exact hp (j + 1) (Nat.succ_lt_succ hj)

theorem getD_take {α : Type} (d : α) :
    ∀ (l : List α) (n j : Nat), j < n → (l.take n).getD j d = l.getD j d
  | [], n, j, _ => by cases n <;> rfl
  | _ :: _, 0, j, h => absurd h (Nat.not_lt_zero j)
  | _ :: _, _ + 1, 0, _ => rfl
  | _ :: l, n + 1, j + 1, h => getD_take d l n j (Nat.lt_of_succ_lt_succ h)

end Casos

namespace Casos

theorem getCases_eq_of_found (rows : List (List Cell)) (h : Nat)
    (hh : findHeaderRowIndex rows = some h) :
    getCases rows =
      ⟨(rows.getD h []).map cellToHeader,
        projectRows ((rows.getD h []).map cellToHeader) (h + 1) 0
          (rows.drop (h + 1))⟩ := by
  simp [getCases, hh]

/-- C1: the header locator scans rows in order over the first
`min 10 rows.length` rows and selects the earliest row whose raw cell list
contains the three exact marker strings `EXPEDIENTE`, `NOMBRES` and `RUT`;
membership is exact-value containment on the untrimmed cells, so a marker
carrying whitespace does not qualify, and a qualifying row at index 10 or
beyond is never found. -/
theorem header_locator_earliest_within_ten (rows : List (List Cell)) (i : Nat) :
    (findHeaderRowIndex rows = some i ↔
      i < min 10 rows.length ∧ rowHasMarkers (rows.getD i []) = true ∧
        ∀ j, j < i → rowHasMarkers (rows.getD j []) = false) ∧
    (∀ row : List Cell, rowHasMarkers row = true ↔
      (Cell.str "EXPEDIENTE" ∈ row ∧ Cell.str "NOMBRES" ∈ row ∧
        Cell.str "RUT" ∈ row)) := by
  constructor
  · rw [findHeaderRowIndex, findMarkerIdx_eq_some]
    have hlen := List.length_take 10 rows
    constructor
    · rintro ⟨k, hik, hk, hm, hp⟩
      have hik2 : i = k := by omega
      subst hik2
      rw [hlen] at hk
      have hk10 : i < 10 := lt_of_lt_of_le hk (min_le_left _ _)
      rw [getD_take ([] : List Cell) rows 10 i hk10] at hm
      refine ⟨hk, hm, ?_⟩
      intro j hj
      have hpj := hp j hj
      rwa [getD_take ([] : List Cell) rows 10 j (lt_trans hj hk10)] at hpj
    · rintro ⟨hk, hm, hp⟩
      have hk10 : i < 10 := lt_of_lt_of_le hk (min_le_left _ _)
      refine ⟨i, by omega, by rw [hlen]; exact hk, ?_, ?_⟩
      · rwa [getD_take ([] : List Cell) rows 10 i hk10]
      · intro j hj
        rw [getD_take ([] : List Cell) rows 10 j (lt_trans hj hk10)]
        exact hp j hj
  · intro row
    simp [rowHasMarkers, and_assoc]

/-- C2: when the header row is found at index `h`, the n-th projected record
carries `rowIndex = h + n + 2`, so the `rowIndex` values are monotonically
increasing and contiguous. -/
theorem projected_rowIndex_formula (rows : List (List Cell)) (h n : Nat)
    (hh : findHeaderRowIndex rows = some h)
    (hn : n < (getCases rows).cases.length) :
    objGet ((getCases rows).cases.getD n []) "rowIndex" =
      some (some (Cell.num ((h : Int) + n + 2))) := by
  rw [getCases_eq_of_found rows h hh] at hn ⊢
  simp only [CaseTable.cases] at hn ⊢
  rw [length_projectRows] at hn
  rw [getD_projectRows _ _ _ 0 n hn, objGet_mkCaseObject_rowIndex]
  have harith : (((h + 1) + (0 + n) + 1 : Nat) : Int) = (h : Int) + n + 2 := by
    push_cast
    ring
  rw [harith]

/-- C5: an absent or empty grid, and a grid in which no row among the first
ten contains all three marker tokens, all yield status 200 with body
`{headers: [], cases: []}`; no error is surfaced. -/
theorem fail_open_to_empty (rowsOpt : Option (List (List Cell)))
    (hc : rowsOpt = none ∨ rowsOpt = some [] ∨
      ∃ rows, rowsOpt = some rows ∧ findHeaderRowIndex rows = none) :
    getCasesRoute rowsOpt = ⟨200, ⟨[], []⟩⟩ := by
  rcases hc with h | h | ⟨rows, h, hf⟩
  · rw [h]
    rfl
  · rw [h]
    rfl
  · subst h
    show (if rows.length = 0 then (⟨200, ⟨[], []⟩⟩ : GetResult)
      else ⟨200, getCases rows⟩) = ⟨200, ⟨[], []⟩⟩
    by_cases hlen : rows.length = 0
    · rw [if_pos hlen]
    · rw [if_neg hlen]
      simp [getCases, hf]

/-- C7: a `PUT /api/cases` body lacking `headers` or `cases` is answered 400
with no remote call; when both fields are present the handler proceeds to the
remote calls, starting with the clear of the data range. -/
theorem put_body_validation (hOpt : Option (List String))
    (cOpt : Option (List JsObj)) :
    ((hOpt = none ∨ cOpt = none) →
      putCases ⟨hOpt, cOpt⟩ =
        ⟨400, "Faltan headers o cases en la petición.", []⟩) ∧
    (∀ hs cs, hOpt = some hs → cOpt = some cs →
      (putCases ⟨hOpt, cOpt⟩).status = 200 ∧
      (putCases ⟨hOpt, cOpt⟩).calls.head? =
        some (SheetCall.clear "BD!A4:ZZ")) := by
  constructor
  · rintro (h | h) <;> subst h
    · cases cOpt <;> rfl
    · cases hOpt <;> rfl
  · intro hs cs h1 h2
    subst h1
    subst h2
    exact ⟨rfl, rfl⟩

/-- C9: every key of every projected record is either a member of the
trimmed header list or the synthetic `rowIndex` field; a data row longer
than the header row contributes no key beyond the header list. -/
theorem case_record_keys_in_vocabulary (rows : List (List Cell)) (h : Nat)
    (hh : findHeaderRowIndex rows = some h) :
    ∀ caso ∈ (getCases rows).cases, ∀ k ∈ objKeys caso,
      k ∈ (getCases rows).headers ∨ k = "rowIndex" := by
  intro caso hc k hk
  rw [getCases_eq_of_found rows h hh] at hc ⊢
  obtain ⟨row, _, ri, he⟩ := mem_projectRows _ _ _ _ _ hc
  subst he
  exact objKeys_mkCaseObject_subset _ row ri k hk

/-- C10: a `PUT /api/cases` body with both fields present and an empty case
list clears the data range but issues no update, and still responds 200. -/
theorem empty_overwrite_clears_only (hs : List String) :
    putCases ⟨some hs, some []⟩ =
      ⟨200, "Hoja de cálculo actualizada con éxito.",
        [SheetCall.clear "BD!A4:ZZ"]⟩ := rfl

end Casos

namespace Casos

/-- C8: when `address`, `location`, `location.lat` or `location.lon` is
missing or falsy, `POST /api/location` responds 400 and issues no append
call; the first conjunct characterises the failing guard exactly. -/
theorem location_validation_rejects (now : String) (body : LocBody) :
    (locBodyValid body = false ↔
      (body.address = none ∨ body.address = some "" ∨ body.location = none ∨
        ∃ loc, body.location = some loc ∧
          (loc.lat = none ∨ loc.lat = some 0 ∨
            loc.lon = none ∨ loc.lon = some 0))) ∧
    (locBodyValid body = false →
      postLocation now body = ⟨400, "Datos de ubicación incompletos.", []⟩) := by
  constructor
  · rcases body with ⟨aOpt, lOpt, cOpt⟩
    rcases aOpt with _ | a
    · simp [locBodyValid, strTruthy]
    · rcases lOpt with _ | ⟨latOpt, lonOpt⟩
      · by_cases ha : a = "" <;> simp [locBodyValid, strTruthy, ha]
      · rcases latOpt with _ | lat <;> rcases lonOpt with _ | lon <;>
          by_cases ha : a = "" <;>
            (simp [locBodyValid, strTruthy, numTruthy, ha]; try tauto)
  · intro hv
    simp [postLocation, hv]

/-- C6 (counterexample): at the spec's own example input the success message
is `Ubicación para "123 Main St" guardada correctamente.`, which contains
but does not start with the first comma-delimited segment of the address. -/
theorem location_message_counterexample :
    (postLocation "2025-01-01T00:00:00.000Z"
        ⟨some "123 Main St, City", some ⟨some 1, some 2⟩, none⟩).message =
      "Ubicación para \"123 Main St\" guardada correctamente." ∧
    List.isPrefixOf "123 Main St".toList
      ((postLocation "2025-01-01T00:00:00.000Z"
        ⟨some "123 Main St, City", some ⟨some 1, some 2⟩, none⟩).message).toList
      = false := by decide

/-- C6 (amended): a valid location body makes the handler append exactly one
five-field row `[now, address, lat, lon, caseId-or-placeholder]` to the
`Ubicaciones` tab and respond 200 with a message that contains the first
comma-delimited segment of the address between fixed surrounding text. -/
theorem location_append_row_and_message (now address : String) (lat lon : Int)
    (caseId : Option String) (ha : address ≠ "") (hlat : lat ≠ 0)
    (hlon : lon ≠ 0) :
    postLocation now ⟨some address, some ⟨some lat, some lon⟩, caseId⟩ =
      ⟨200,
        "Ubicación para \"" ++ firstSegment address ++
          "\" guardada correctamente.",
        [SheetCall.append "Ubicaciones!A:E"
          [[Cell.str now, Cell.str address, Cell.num lat, Cell.num lon,
            Cell.str (caseIdOrNA caseId)]]]⟩ ∧
    caseIdOrNA none = "N/A" := by
  have hv : locBodyValid ⟨some address, some ⟨some lat, some lon⟩, caseId⟩
      = true := by
    simp [locBodyValid, strTruthy, numTruthy, ha, hlat, hlon]
  refine ⟨?_, rfl⟩
  simp [postLocation, hv]

end Casos

namespace Casos

/-- A concrete grid whose header row carries a truthy numeric cell. -/
def numericHeaderGrid : List (List Cell) :=
  [[Cell.str "EXPEDIENTE", Cell.str "NOMBRES", Cell.str "RUT", Cell.num 5]]

/-- C4 (counterexample): a truthy non-string header cell (the number 5) is
materialized as its trimmed string form "5", not as the empty string. -/
theorem numeric_header_cell_counterexample :
    (getCases numericHeaderGrid).headers =
      ["EXPEDIENTE", "NOMBRES", "RUT", "5"] ∧
    (getCases numericHeaderGrid).headers.getD 3 "" ≠ "" := by decide

/-- C4 (amended): each header cell converts to its trimmed string form when
truthy and to the empty string when falsy, preserving column order; and when
the trimmed header names are pairwise distinct and none equals `rowIndex`,
every projected record's keys are exactly the trimmed header list followed by
the synthetic `rowIndex` field. -/
theorem header_list_and_record_keys (rows : List (List Cell)) (h : Nat)
    (hh : findHeaderRowIndex rows = some h)
    (hnd : ((rows.getD h []).map cellToHeader).Nodup)
    (hri : "rowIndex" ∉ (rows.getD h []).map cellToHeader) :
    (getCases rows).headers =
      (rows.getD h []).map
        (fun c => if cellTruthy c then trimString (cellToString c) else "") ∧
    ∀ caso ∈ (getCases rows).cases,
      objKeys caso = (getCases rows).headers ++ ["rowIndex"] := by
  rw [getCases_eq_of_found rows h hh]
  refine ⟨rfl, ?_⟩
  intro caso hc
  obtain ⟨row, _, ri, he⟩ := mem_projectRows _ _ _ _ _ hc
  subst he
  exact objKeys_mkCaseObject _ row ri hnd hri

theorem serializeRow_mkCaseObject (headers : List String) (hnd : headers.Nodup)
    (hri : "rowIndex" ∉ headers) (row : List Cell) (ri : Nat)
    (htr : ∀ c ∈ row, cellTruthy c = true) :
    headers.map
        (fun k => serializeField (objGet (mkCaseObject headers row ri) k)) =
      (List.range headers.length).map (fun i => row.get? i) := by
  apply List.ext
  intro n
  rw [List.get?_map, List.get?_map]
  by_cases hn : n < headers.length
  · rw [List.get?_eq_get hn, List.get?_range hn]
    show some (serializeField (objGet (mkCaseObject headers row ri)
      (headers.get ⟨n, hn⟩))) = some (row.get? n)
    rw [objGet_mkCaseObject_header headers row ri n hn hnd hri]
    rcases hg : row.get? n with _ | c
    · rfl
    · have hc : c ∈ row := List.get?_mem hg
      show some (if cellTruthy c then some c else none) = some (some c)
      rw [if_pos (htr c hc)]
  · have h1 : headers.get? n = none :=
      List.get?_eq_none.mpr (Nat.le_of_not_lt hn)
    have h2 : (List.range headers.length).get? n = none :=
      List.get?_eq_none.mpr (by rw [List.length_range]; omega)
    rw [h1, h2]
    rfl

theorem serializeCases_projectRows (headers : List String)
    (hnd : headers.Nodup) (hri : "rowIndex" ∉ headers) (ds : Nat) :
    ∀ (l : List (List Cell)) (i0 : Nat),
      (∀ row ∈ l, ∀ c ∈ row, cellTruthy c = true) →
      serializeCases headers (projectRows headers ds i0 l) =
        l.map (fun row =>
          (List.range headers.length).map (fun i => row.get? i))
  | [], _, _ => rfl
  | row :: rest, i0, htr => by
    rw [projectRows, serializeCases, List.map_cons, List.map_cons]
    have htail := serializeCases_projectRows headers hnd hri ds rest (i0 + 1)
      (fun r hr => htr r (List.mem_cons_of_mem row hr))
    rw [serializeCases] at htail
    rw [htail]
    have hhead := serializeRow_mkCaseObject headers hnd hri row
      (ds + i0 + 1) (htr row (List.mem_cons_self row rest))
    rw [hhead]

end Casos

namespace Casos

/-- A concrete grid: the marker header row followed by one short data row. -/
def sampleGrid : List (List Cell) :=
  [[Cell.str "EXPEDIENTE", Cell.str "NOMBRES", Cell.str "RUT"],
   [Cell.str "a"]]

/-- A concrete grid whose single data row is longer than the header row. -/
def longRowGrid : List (List Cell) :=
  [[Cell.str "EXPEDIENTE", Cell.str "NOMBRES", Cell.str "RUT"],
   [Cell.str "a", Cell.str "b", Cell.str "c", Cell.str "d"]]

/-- A concrete grid in which no row contains all three marker tokens. -/
def noMarkerGrid : List (List Cell) :=
  [[Cell.str "a"], [Cell.str "RUT"]]

/-- C3 (counterexample): on a grid whose data row is longer than the header
row, the round trip drops the trailing cell "d": the serialized row has only
the header-list columns, so a non-empty original cell is not reproduced. -/
theorem roundtrip_drops_trailing_cell :
    serializeCases (getCases longRowGrid).headers
        (getCases longRowGrid).cases =
      [[some (Cell.str "a"), some (Cell.str "b"), some (Cell.str "c")]] ∧
    Cell.str "d" ∈ longRowGrid.getD 1 [] ∧
    some (Cell.str "d") ∉
      (serializeCases (getCases longRowGrid).headers
        (getCases longRowGrid).cases).getD 0 [] := by decide

/-- C3 (amended): when the trimmed header names are pairwise distinct and
none equals `rowIndex`, every data row is no longer than the header row, and
every data cell is truthy, projecting and then serializing with the same
header order reproduces each original cell at its original column position
and fills the columns past a row's end with null rather than omitting them. -/
theorem roundtrip_reproduces_truthy_cells (rows : List (List Cell)) (h : Nat)
    (hh : findHeaderRowIndex rows = some h)
    (hnd : ((rows.getD h []).map cellToHeader).Nodup)
    (hri : "rowIndex" ∉ (rows.getD h []).map cellToHeader)
    (hlen : ∀ row ∈ rows.drop (h + 1), row.length ≤ (rows.getD h []).length)
    (htr : ∀ row ∈ rows.drop (h + 1), ∀ c ∈ row, cellTruthy c = true) :
    serializeCases (getCases rows).headers (getCases rows).cases =
      (rows.drop (h + 1)).map
        (fun row => (List.range (rows.getD h []).length).map
          (fun i => row.get? i)) := by
  rw [getCases_eq_of_found rows h hh]
  show serializeCases ((rows.getD h []).map cellToHeader)
      (projectRows ((rows.getD h []).map cellToHeader) (h + 1) 0
        (rows.drop (h + 1))) = _
  rw [serializeCases_projectRows ((rows.getD h []).map cellToHeader) hnd hri
    (h + 1) (rows.drop (h + 1)) 0 htr, List.length_map]

/-- Witness for C1: the locator finds the header row of a concrete grid at
index 0, through the characterisation theorem. -/
theorem header_locator_witness :
    findHeaderRowIndex sampleGrid = some 0 :=
  (header_locator_earliest_within_ten sampleGrid 0).1.mpr
    ⟨by decide, by decide, fun j hj => absurd hj (Nat.not_lt_zero j)⟩

/-- Witness for C2 at a concrete grid: the first record of a header-at-0
grid carries rowIndex 2. -/
theorem projected_rowIndex_formula_witness :
    findHeaderRowIndex sampleGrid = some 0 ∧
    0 < (getCases sampleGrid).cases.length ∧
    objGet ((getCases sampleGrid).cases.getD 0 []) "rowIndex" =
      some (some (Cell.num 2)) :=
  ⟨by decide, by decide,
    projected_rowIndex_formula sampleGrid 0 0 (by decide) (by decide)⟩

/-- Witness for C3 (amended) at a concrete grid: the short data row comes
back with its cell in place and nulls for the missing columns. -/
theorem roundtrip_reproduces_truthy_cells_witness :
    findHeaderRowIndex sampleGrid = some 0 ∧
    serializeCases (getCases sampleGrid).headers (getCases sampleGrid).cases =
      [[some (Cell.str "a"), none, none]] :=
  ⟨by decide,
    (roundtrip_reproduces_truthy_cells sampleGrid 0 (by decide) (by decide)
      (by decide) (by decide) (by decide)).trans (by decide)⟩

/-- Witness for C4 (amended) at a concrete grid. -/
theorem header_list_and_record_keys_witness :
    findHeaderRowIndex sampleGrid = some 0 ∧
    (getCases sampleGrid).headers = ["EXPEDIENTE", "NOMBRES", "RUT"] ∧
    objKeys ((getCases sampleGrid).cases.getD 0 []) =
      ["EXPEDIENTE", "NOMBRES", "RUT", "rowIndex"] := by
  refine ⟨by decide, ?_, ?_⟩
  · exact ((header_list_and_record_keys sampleGrid 0 (by decide) (by decide)
      (by decide)).1).trans (by decide)
  · exact ((header_list_and_record_keys sampleGrid 0 (by decide) (by decide)
      (by decide)).2 ((getCases sampleGrid).cases.getD 0 [])
        (by decide)).trans (by decide)

/-- Witness for C5: a concrete marker-free grid produces the empty 200
response. -/
theorem fail_open_to_empty_witness :
    getCasesRoute (some noMarkerGrid) = ⟨200, ⟨[], []⟩⟩ :=
  fail_open_to_empty (some noMarkerGrid)
    (Or.inr (Or.inr ⟨noMarkerGrid, rfl, by decide⟩))

/-- Witness for C6 (amended) at the spec's example input. -/
theorem location_append_row_and_message_witness :
    postLocation "2025-01-01T00:00:00.000Z"
        ⟨some "123 Main St, City", some ⟨some 1, some 2⟩, none⟩ =
      ⟨200, "Ubicación para \"123 Main St\" guardada correctamente.",
        [SheetCall.append "Ubicaciones!A:E"
          [[Cell.str "2025-01-01T00:00:00.000Z",
            Cell.str "123 Main St, City", Cell.num 1, Cell.num 2,
            Cell.str "N/A"]]]⟩ :=
  ((location_append_row_and_message "2025-01-01T00:00:00.000Z"
      "123 Main St, City" 1 2 none (by decide) (by decide)
      (by decide)).1).trans (by decide)

/-- Witness for C7: the empty body is rejected with no calls; a complete
body leads with the clear call. -/
theorem put_body_validation_witness :
    putCases ⟨none, some []⟩ =
      ⟨400, "Faltan headers o cases en la petición.", []⟩ ∧
    (putCases ⟨some ["EXPEDIENTE"], some []⟩).calls.head? =
      some (SheetCall.clear "BD!A4:ZZ") :=
  ⟨(put_body_validation none (some [])).1 (Or.inl rfl),
    ((put_body_validation (some ["EXPEDIENTE"]) (some [])).2 ["EXPEDIENTE"] []
      rfl rfl).2⟩

/-- Witness for C8: a body with a missing latitude is rejected with no
append call. -/
theorem location_validation_rejects_witness :
    locBodyValid ⟨some "X", some ⟨none, some 1⟩, none⟩ = false ∧
    postLocation "2025-01-01T00:00:00.000Z"
        ⟨some "X", some ⟨none, some 1⟩, none⟩ =
      ⟨400, "Datos de ubicación incompletos.", []⟩ :=
  ⟨by decide,
    (location_validation_rejects "2025-01-01T00:00:00.000Z"
      ⟨some "X", some ⟨none, some 1⟩, none⟩).2 (by decide)⟩

/-- Witness for C9 at a grid whose data row is longer than the header row. -/
theorem case_record_keys_in_vocabulary_witness :
    findHeaderRowIndex longRowGrid = some 0 ∧
    ("EXPEDIENTE" ∈ (getCases longRowGrid).headers ∨
      "EXPEDIENTE" = "rowIndex") :=
  ⟨by decide,
    case_record_keys_in_vocabulary longRowGrid 0 (by decide)
      ((getCases longRowGrid).cases.getD 0 []) (by decide) "EXPEDIENTE"
      (by decide)⟩

/-- Witness for C10 at a concrete header list. -/
theorem empty_overwrite_clears_only_witness :
    putCases ⟨some ["RUT"], some []⟩ =
      ⟨200, "Hoja de cálculo actualizada con éxito.",
        [SheetCall.clear "BD!A4:ZZ"]⟩ :=
  empty_overwrite_clears_only ["RUT"]

end Casos
